import Mathlib

/-!
Verification of the zend wire/protocol core against its implementation.

The definitions below are a shallow embedding of the Rust sources:
  - `src/common/zend-common/src/api.rs` (wire types, nonce, room id, signed call envelope),
  - `src/zend-worker/src/websocket.rs` (server-side admission and dispatch),
  - `src/src/websocket_api.rs` (the `SignedMethodCallOrPartial` conversion),
  - `src/zend-leptos/src/wsclient.rs` (client event bus and reconnect backoff).

Machine integers (`u64`) are embedded as `Nat` with explicit wrapping
(`% 2 ^ 64`) where Rust release builds wrap; Rust debug-build overflow panics
are modelled as `Option.none` where a claim depends on them.  `assert!`
failures (panics) are likewise modelled as `none`.  The p256 ECDSA crate is an
external dependency; it is modelled as an ideal deterministic signature scheme
(a signature is valid exactly when it was produced by the matching key over
exactly the verified message), which is the standard idealisation of a
correct, unforgeable signature scheme.  Base64 rendering of keys (the external
`base64` crate) is modelled as an injective rendering of the idealised key.
-/

namespace Zend

/-- `2 ^ 64`, the modulus of Rust `u64` arithmetic. -/
def u64Mod : Nat := 2 ^ 64

/-- Wrapping `u64` addition (Rust release-build semantics). -/
def wrapAdd (a b : Nat) : Nat := (a + b) % u64Mod

/-- Wrapping `u64` subtraction (Rust release-build semantics), for `a b < 2 ^ 64`. -/
def wrapSub (a b : Nat) : Nat := (a + u64Mod - b) % u64Mod

/-! ### JSON values (`serde_json::Value`)

`serde_json::Value` is embedded as a plain JSON tree.  Numbers are embedded as
integers (the payloads this system carries through `Value` are opaque at this
layer; no claim depends on float payloads). -/

inductive Json where
  | null : Json
  | bool (b : Bool) : Json
  | num (n : Int) : Json
  | str (s : String) : Json
  | arr (xs : List Json) : Json
  | obj (fields : List (String × Json)) : Json
deriving Repr, BEq

/-- Hex digit for JSON `\u00XX` escapes. -/
def hexDigit (n : Nat) : Char :=
  if n < 10 then Char.ofNat (48 + n) else Char.ofNat (87 + n)

/-- JSON string escaping as `serde_json` performs it (quote, backslash,
control characters). -/
def escapeJsonChar (c : Char) : String :=
  if c = '"' then "\\\""
  else if c = '\\' then "\\\\"
  else if c = Char.ofNat 8 then "\\b"
  else if c = Char.ofNat 9 then "\\t"
  else if c = Char.ofNat 10 then "\\n"
  else if c = Char.ofNat 12 then "\\f"
  else if c = Char.ofNat 13 then "\\r"
  else if c.toNat < 32 then
    "\\u00" ++ String.singleton (hexDigit (c.toNat / 16)) ++ String.singleton (hexDigit (c.toNat % 16))
  else String.singleton c

/-- Render a JSON string literal. -/
def renderJsonString (s : String) : String :=
  "\"" ++ String.join (s.data.map escapeJsonChar) ++ "\""

mutual

/-- Compact rendering of a JSON value, as `serde_json::to_string` produces. -/
def Json.render : Json → String
  | .null => "null"
  | .bool true => "true"
  | .bool false => "false"
  | .num n => toString n
  | .str s => renderJsonString s
  | .arr xs => "[" ++ Json.renderArr xs ++ "]"
  | .obj fs => "\x7b" ++ Json.renderObj fs ++ "\x7d"

/-- Comma-separated rendering of array elements. -/
def Json.renderArr : List Json → String
  | [] => ""
  | [x] => Json.render x
  | x :: y :: xs => Json.render x ++ "," ++ Json.renderArr (y :: xs)

/-- Comma-separated rendering of object entries. -/
def Json.renderObj : List (String × Json) → String
  | [] => ""
  | [(k, v)] => renderJsonString k ++ ":" ++ Json.render v
  | (k, v) :: f :: fs => renderJsonString k ++ ":" ++ Json.render v ++ "," ++ Json.renderObj (f :: fs)

end

/-! ### Idealised ECDSA (`p256` crate, external) -/

/-- `p256::ecdsa::SigningKey`, idealised: a key is an abstract scalar. -/
structure SigningKey where
  key : Nat
deriving Repr, DecidableEq

/-- `p256::ecdsa::VerifyingKey`, idealised. -/
structure VerifyingKey where
  key : Nat
deriving Repr, DecidableEq

/-- Public-key derivation (`SigningKey::verifying_key`), idealised as the
identity on the abstract scalar. -/
def SigningKey.verifyingKey (sk : SigningKey) : VerifyingKey :=
  { key := sk.key }

/-- An ECDSA signature, idealised: it determines the signer and the exact
signed message (correct, deterministic, unforgeable scheme). -/
structure EcdsaSig where
  signerKey : Nat
  message : String
deriving Repr, DecidableEq

/-- `Signer::sign`, idealised. -/
def ecdsaSign (sk : SigningKey) (msg : String) : EcdsaSig :=
  { signerKey := sk.key, message := msg }

/-- `Verifier::verify`, idealised: valid exactly for the signer's key over the
byte-identical message. -/
def ecdsaVerify (vk : VerifyingKey) (msg : String) (sig : EcdsaSig) : Bool :=
  sig.signerKey == vk.key && sig.message == msg

/-- `EcdsaPublicKeyWrapper` (zend-common/api.rs). -/
structure EcdsaPublicKeyWrapper where
  vk : VerifyingKey
deriving Repr, DecidableEq

/-- Display of a public key: base64 of its compressed SEC1 point.  The base64
encoding of the point bytes is external and injective; it is modelled as a
decimal rendering of the idealised key. -/
def EcdsaPublicKeyWrapper.render (k : EcdsaPublicKeyWrapper) : String :=
  Nat.repr k.vk.key

/-- `EcdsaSignatureWrapper` (zend-common/api.rs). -/
structure EcdsaSignatureWrapper where
  sig : EcdsaSig
deriving Repr, DecidableEq

/-! ### Nonce (zend-common/api.rs) -/

/-- `Nonce { id: u64, timestamp: u64 }`. -/
structure Nonce where
  id : Nat
  timestamp : Nat
deriving Repr, DecidableEq

/-- `Nonce::new`. -/
def Nonce.new (time : Nat) : Nonce :=
  { id := 0, timestamp := time }

/-- `Nonce::next`.  The `self.id + 1` is `u64` addition, hence the wrap. -/
def Nonce.next (n : Nonce) (time : Nat) : Nonce :=
  { id := if time > n.timestamp then 0 else (n.id + 1) % u64Mod
    timestamp := time }

/-- `Display for Nonce`: `"<id>_<timestamp>"`. -/
def Nonce.render (n : Nonce) : String :=
  Nat.repr n.id ++ "_" ++ Nat.repr n.timestamp

/-! ### RoomId (zend-common/api.rs) -/

/-- `RoomId(u64)`. -/
structure RoomId where
  val : Nat
deriving Repr, DecidableEq

/-- `RoomId::from_int`: `assert!(id_int < 26u64.pow(6))`; the assertion
failure (panic) is modelled as `none`. -/
def RoomId.from_int (idInt : Nat) : Option RoomId :=
  if idInt < 26 ^ 6 then some { val := idInt } else none

/-- `char::make_ascii_uppercase`. -/
def makeAsciiUppercase (c : Char) : Char :=
  if 97 ≤ c.toNat ∧ c.toNat ≤ 122 then Char.ofNat (c.toNat - 32) else c

/-- `char::is_ascii_uppercase`. -/
def isAsciiUppercase (c : Char) : Bool :=
  65 ≤ c.toNat && c.toNat ≤ 90

/-- An ASCII letter (A-Z or a-z); `RoomId` parsing accepts exactly these. -/
def isAsciiAlpha (c : Char) : Bool :=
  (65 ≤ c.toNat && c.toNat ≤ 90) || (97 ≤ c.toNat && c.toNat ≤ 122)

/-- The character loop of `TryFrom<String> for RoomId`: walks the characters
with `exponent` counting down from 5 (an `i8` in the source, hence `Int`). -/
def roomIdParseLoop : List Char → Int → Nat → Except String Nat
  | [], exponent, acc =>
      if exponent > -1 then .error "ID too short" else .ok acc
  | c :: rest, exponent, acc =>
      if exponent < 0 then .error "ID too long"
      else
        let c := makeAsciiUppercase c
        if ¬ isAsciiUppercase c then .error "ID contains invalid characters"
        else roomIdParseLoop rest (exponent - 1) (acc + 26 ^ exponent.toNat * (c.toNat - 65))

/-- `TryFrom<String> for RoomId`. -/
def RoomId.tryFromString (value : String) : Except String RoomId :=
  (roomIdParseLoop value.data 5 0).map RoomId.mk

/-- The digit loop of `Into<String> for RoomId`: six iterations, each pushing
`input % 26 + 65` while `input > 0` and `'A'` once `input` reaches 0. -/
def roomIdRenderLoop : Nat → Nat → List Char
  | _, 0 => []
  | input, k + 1 =>
      if input > 0 then
        Char.ofNat (input % 26 + 65) :: roomIdRenderLoop (input / 26) k
      else
        'A' :: roomIdRenderLoop input k

/-- `Into<String> for RoomId`: the value is silently reduced `% 26u64.pow(6)`,
the six digits are pushed least-significant first and the result reversed. -/
def RoomId.intoString (r : RoomId) : String :=
  String.mk (roomIdRenderLoop (r.val % 26 ^ 6) 6).reverse

/-! ### Method call envelope (zend-common/api.rs) -/

/-- `MethodCallCommonArgs`. -/
structure MethodCallCommonArgs where
  caller_id : EcdsaPublicKeyWrapper
  nonce : Nonce
deriving Repr, DecidableEq

/-- `SubscribeToRoomArgs`. -/
structure SubscribeToRoomArgs where
  room_id : RoomId
deriving Repr, DecidableEq

/-- `UnsubscribeFromRoomArgs`. -/
structure UnsubscribeFromRoomArgs where
  subscription_id : Nat
deriving Repr, DecidableEq

/-- `AddPrivilegedPeerArgs`. -/
structure AddPrivilegedPeerArgs where
  room_id : RoomId
  allow_id : EcdsaPublicKeyWrapper
deriving Repr, DecidableEq

/-- `GetRoomDataHistoryArgs`. -/
structure GetRoomDataHistoryArgs where
  room_id : RoomId
  from_timestamp : Nat
deriving Repr, DecidableEq

/-- `DeleteDataArgs`. -/
structure DeleteDataArgs where
  room_id : RoomId
  data_sender_id : EcdsaPublicKeyWrapper
  data_nonce : Nonce
deriving Repr, DecidableEq

/-- `SendDataCommonArgs`. -/
structure SendDataCommonArgs where
  room_id : RoomId
  write_history : Bool
  data : Json
deriving Repr

/-- `BroadcastDataArgs` (flattens `SendDataCommonArgs`). -/
structure BroadcastDataArgs where
  common_args : SendDataCommonArgs
deriving Repr

/-- `UnicastDataArgs`. -/
structure UnicastDataArgs where
  receiver_id : EcdsaPublicKeyWrapper
  common_args : SendDataCommonArgs
  make_receiver_privileged : Bool
deriving Repr

/-- `MethodCallArgsVariants`: the closed tagged union of method calls,
tagged `method_name` with content `method_arguments`. -/
inductive MethodCallArgsVariants where
  | CreateRoom : MethodCallArgsVariants
  | SubscribeToRoom (args : SubscribeToRoomArgs) : MethodCallArgsVariants
  | UnsubscribeFromRoom (args : UnsubscribeFromRoomArgs) : MethodCallArgsVariants
  | AddPrivilegedPeer (args : AddPrivilegedPeerArgs) : MethodCallArgsVariants
  | GetRoomDataHistory (args : GetRoomDataHistoryArgs) : MethodCallArgsVariants
  | DeleteData (args : DeleteDataArgs) : MethodCallArgsVariants
  | BroadcastData (args : BroadcastDataArgs) : MethodCallArgsVariants
  | UnicastData (args : UnicastDataArgs) : MethodCallArgsVariants
deriving Repr

/-- `MethodCallContent`: common arguments and variant arguments, both
`#[serde(flatten)]`-ed into one object. -/
structure MethodCallContent where
  common_arguments : MethodCallCommonArgs
  variant_arguments : MethodCallArgsVariants
deriving Repr

/-- Serde serialisation of `SendDataCommonArgs` fields. -/
def SendDataCommonArgs.toJsonFields (a : SendDataCommonArgs) : List (String × Json) :=
  [("room_id", .str a.room_id.intoString),
   ("write_history", .bool a.write_history),
   ("data", a.data)]

/-- Serde serialisation of the variant tag and arguments
(`tag = "method_name"`, `content = "method_arguments"`; a unit variant
serialises as the tag alone). -/
def MethodCallArgsVariants.toJsonFields : MethodCallArgsVariants → List (String × Json)
  | .CreateRoom => [("method_name", .str "create_room")]
  | .SubscribeToRoom a =>
      [("method_name", .str "subscribe_to_room"),
       ("method_arguments", .obj [("room_id", .str a.room_id.intoString)])]
  | .UnsubscribeFromRoom a =>
      [("method_name", .str "unsubscribe_from_room"),
       ("method_arguments", .obj [("subscription_id", .num a.subscription_id)])]
  | .AddPrivilegedPeer a =>
      [("method_name", .str "add_privileged_peer"),
       ("method_arguments", .obj [("room_id", .str a.room_id.intoString),
                                  ("allow_id", .str a.allow_id.render)])]
  | .GetRoomDataHistory a =>
      [("method_name", .str "get_room_data_history"),
       ("method_arguments", .obj [("room_id", .str a.room_id.intoString),
                                  ("from_timestamp", .num a.from_timestamp)])]
  | .DeleteData a =>
      [("method_name", .str "delete_data"),
       ("method_arguments", .obj [("room_id", .str a.room_id.intoString),
                                  ("data_sender_id", .str a.data_sender_id.render),
                                  ("data_nonce", .str a.data_nonce.render)])]
  | .BroadcastData a =>
      [("method_name", .str "broadcast_data"),
       ("method_arguments", .obj a.common_args.toJsonFields)]
  | .UnicastData a =>
      [("method_name", .str "unicast_data"),
       ("method_arguments", .obj ([("receiver_id", .str a.receiver_id.render)]
          ++ a.common_args.toJsonFields
          ++ [("make_receiver_privileged", .bool a.make_receiver_privileged)]))]

/-- Serde serialisation of `MethodCallContent` to a JSON object: the flattened
common arguments followed by the flattened variant tag and arguments. -/
def MethodCallContent.toJson (c : MethodCallContent) : Json :=
  .obj ([("caller_id", .str c.common_arguments.caller_id.render),
         ("nonce", .str c.common_arguments.nonce.render)]
        ++ c.variant_arguments.toJsonFields)

/-- `serde_json::to_string` of a `MethodCallContent`.  On these types
serialisation cannot fail, so it is total. -/
def serializeMethodCallContent (c : MethodCallContent) : String :=
  c.toJson.render

/-- `MethodCall { json: String, call: MethodCallContent }`: the parsed call
together with the exact JSON string it was serialised to / parsed from. -/
structure MethodCall where
  json : String
  call : MethodCallContent
deriving Repr

/-- `TryFrom<MethodCallContent> for MethodCall`: serialises the content once
and retains the JSON string alongside it. -/
def MethodCall.tryFromContent (value : MethodCallContent) : MethodCall :=
  { json := serializeMethodCallContent value, call := value }

/-- `SignedMethodCall { call_id, signed_call, signature }`. -/
structure SignedMethodCall where
  call_id : Nat
  signed_call : MethodCall
  signature : EcdsaSignatureWrapper
deriving Repr

/-- `MethodCallContent::sign`: converts to a `MethodCall` (serialising the
content to its canonical JSON exactly once) and signs exactly those JSON
bytes. -/
def MethodCallContent.sign (c : MethodCallContent) (call_id : Nat) (signing_key : SigningKey) :
    SignedMethodCall :=
  let signed_call := MethodCall.tryFromContent c
  { call_id := call_id
    signature := { sig := ecdsaSign signing_key signed_call.json }
    signed_call := signed_call }

/-- `SignedMethodCall::validate_timestamp`, Rust release-build semantics:
`timestamp < now + 10 && timestamp > now - 5 * 60` with wrapping `u64`
arithmetic. -/
def SignedMethodCall.validate_timestamp (sc : SignedMethodCall) (now : Nat) : Bool :=
  let timestamp := sc.signed_call.call.common_arguments.nonce.timestamp
  decide (timestamp < wrapAdd now 10) && decide (timestamp > wrapSub now (5 * 60))

/-- `SignedMethodCall::validate_timestamp`, Rust debug-build semantics: an
overflowing `now + 10` or underflowing `now - 5 * 60` panics (`none`).  Note
`&&` short-circuits, so the subtraction is only evaluated when the first
comparison succeeds. -/
def SignedMethodCall.validate_timestampDebug (sc : SignedMethodCall) (now : Nat) : Option Bool :=
  let timestamp := sc.signed_call.call.common_arguments.nonce.timestamp
  if now + 10 ≥ u64Mod then none
  else if timestamp < now + 10 then
    if now < 5 * 60 then none else some (timestamp > now - 5 * 60)
  else some false

/-- `SignedMethodCall::validate_signature`: verifies the stored JSON bytes
against the embedded caller public key; the parsed struct is never
re-serialised. -/
def SignedMethodCall.validate_signature (sc : SignedMethodCall) : Except Unit Unit :=
  if ecdsaVerify sc.signed_call.call.common_arguments.caller_id.vk sc.signed_call.json
      sc.signature.sig then .ok () else .error ()

/-- `SignedMethodCallPartial { call_id: u64, #[serde(flatten)] extra }`. -/
structure SignedMethodCallPartial where
  call_id : Nat
  extra : Json
deriving Repr

/-- `SignedMethodCallOrPartial`. -/
inductive SignedMethodCallOrPartial where
  | Full (call : SignedMethodCall) : SignedMethodCallOrPartial
  | Partial (call_id : Nat) : SignedMethodCallOrPartial
deriving Repr

/-- `serde_json::Map::insert` (replace the value at an existing key, else add
the entry). -/
def jsonObjInsert (fields : List (String × Json)) (k : String) (v : Json) :
    List (String × Json) :=
  if fields.any (fun f => f.1 == k) then
    fields.map (fun f => if f.1 == k then (k, v) else f)
  else fields ++ [(k, v)]

/-- The inner `fn fallible` of `From<SignedMethodCallPartial> for
SignedMethodCallOrPartial` (src/websocket_api.rs): re-inserts the recovered
`call_id` into the remaining fields and retries the full parse.
`serde_json::from_value::<SignedMethodCall>` is the serde-derived full parser;
it is abstracted as the `fullParse` argument. -/
def signedMethodCallPartialFallible (fullParse : Json → Option SignedMethodCall)
    (value : SignedMethodCallPartial) : Option SignedMethodCall :=
  match value.extra with
  | .obj fields => fullParse (.obj (jsonObjInsert fields "call_id" (.num value.call_id)))
  | _ => none

/-- `From<SignedMethodCallPartial> for SignedMethodCallOrPartial`
(src/websocket_api.rs): degrade to `Partial(call_id)` when the full parse
fails. -/
def SignedMethodCallOrPartial.fromPartial (fullParse : Json → Option SignedMethodCall)
    (value : SignedMethodCallPartial) : SignedMethodCallOrPartial :=
  match signedMethodCallPartialFallible fullParse value with
  | some v => .Full v
  | none => .Partial value.call_id

/-- `ClientToServerMessage`. -/
inductive ClientToServerMessage where
  | Ping : ClientToServerMessage
  | SignedMethodCall (c : SignedMethodCallOrPartial) : ClientToServerMessage
deriving Repr

/-- `CreateRoomSuccess`. -/
structure CreateRoomSuccess where
  room_id : RoomId
deriving Repr, DecidableEq

/-- `SubscribeSuccess`. -/
structure SubscribeSuccess where
  subscription_id : Nat
deriving Repr, DecidableEq

/-- `MethodCallSuccess`. -/
inductive MethodCallSuccess where
  | Value (v : Json) : MethodCallSuccess
  | CreateRoom (s : CreateRoomSuccess) : MethodCallSuccess
  | SubscribeToRoom (s : SubscribeSuccess) : MethodCallSuccess
  | Ack : MethodCallSuccess
deriving Repr

/-- `ErrorId`: the closed set of protocol error identifiers. -/
inductive ErrorId where
  | InternalError : ErrorId
  | InvalidSignature : ErrorId
  | ParseError : ErrorId
deriving Repr, DecidableEq

/-- `MethodCallError { error_id, message }`. -/
structure MethodCallError where
  error_id : ErrorId
  message : Option String
deriving Repr, DecidableEq

/-- `ErrorId::with_message`. -/
def ErrorId.with_message (e : ErrorId) (message : String) : MethodCallError :=
  { error_id := e, message := some message }

/-- `ErrorId::with_default_message`. -/
def ErrorId.with_default_message (e : ErrorId) : MethodCallError :=
  let message := match e with
    | .InternalError => "An unexpected internal error occured."
    | .InvalidSignature => "The request was not signed correctly."
    | .ParseError => "The request could not be parsed."
  if message.isEmpty then { error_id := e, message := none }
  else e.with_message message

/-- `MethodCallReturnVariants`. -/
inductive MethodCallReturnVariants where
  | Success (s : MethodCallSuccess) : MethodCallReturnVariants
  | Error (e : MethodCallError) : MethodCallReturnVariants
deriving Repr

/-- `MethodCallReturn`. -/
structure MethodCallReturn where
  call_id : Nat
  return_data : MethodCallReturnVariants
deriving Repr

/-- `SubscriptionData`. -/
structure SubscriptionData where
  subscription_id : Nat
  room_id : RoomId
  sender_id : EcdsaPublicKeyWrapper
  nonce : Nonce
  data : Json
deriving Repr

/-- `ServerToClientMessage`. -/
inductive ServerToClientMessage where
  | Pong : ServerToClientMessage
  | MethodCallReturn (r : MethodCallReturn) : ServerToClientMessage
  | SubscriptionData (d : SubscriptionData) : ServerToClientMessage
  | Info (text : String) : ServerToClientMessage
deriving Repr

/-- `ServerToClientMessage::call_error`. -/
def ServerToClientMessage.call_error (call_id : Nat) (error_id : ErrorId)
    (message : Option String) : ServerToClientMessage :=
  .MethodCallReturn { call_id := call_id
                      return_data := .Error { error_id := error_id, message := message } }

/-- `ServerToClientMessage::from_error`. -/
def ServerToClientMessage.from_error (call_id : Nat) (error : MethodCallError) :
    ServerToClientMessage :=
  .MethodCallReturn { call_id := call_id, return_data := .Error error }

/-- `ServerToClientMessage::from_success`. -/
def ServerToClientMessage.from_success (call_id : Nat) (data : MethodCallSuccess) :
    ServerToClientMessage :=
  .MethodCallReturn { call_id := call_id, return_data := .Success data }

/-! ### Server-side admission and dispatch (zend-worker/src/websocket.rs) -/

/-- `CheckSignedMethodCallError`. -/
inductive CheckSignedMethodCallError where
  | WorkerError (e : String) : CheckSignedMethodCallError
  | CheckFail : CheckSignedMethodCallError
deriving Repr

/-- `serde_json::from_str::<bool>` on the Peer actor's response body. -/
def parseJsonBool (s : String) : Option Bool :=
  let t := s.trim
  if t = "true" then some true
  else if t = "false" then some false
  else none

/-- Handler outcome of `websocket_api_handlers`: either a transport-level
worker fault or a business-level method error. -/
inductive HandlerError where
  | WorkerError (e : String) : HandlerError
  | MethodError (e : MethodCallError) : HandlerError
deriving Repr

/-- The server's external collaborators for one inbound call, supplied as an
environment: the current time, the Peer actor's RPC response body (`Except`
error = transport failure), and the dispatched handler's outcome.  The Room
and Peer actors are external services (spec scope), so their behaviour is an
input, not part of the embedded code. -/
structure ServerEnv where
  now : Nat
  peerResponse : Except String String
  handlerResult : MethodCallCommonArgs → MethodCallArgsVariants → Except HandlerError MethodCallSuccess

/-- `check_signed_method_call` (zend-worker/src/websocket.rs): signature
check, then timestamp check, then the Peer actor's `check_nonce_is_used`
ledger lookup; a used nonce is a `CheckFail`, a failed RPC or unparsable
response a `WorkerError`. -/
def check_signed_method_call (env : ServerEnv) (signed_call : SignedMethodCall) :
    Except CheckSignedMethodCallError Unit :=
  match signed_call.validate_signature with
  | .error _ => .error .CheckFail
  | .ok _ =>
    if ¬ signed_call.validate_timestamp env.now then .error .CheckFail
    else
      match env.peerResponse with
      | .error e => .error (.WorkerError e)
      | .ok body =>
        match parseJsonBool body with
        | none => .error (.WorkerError "peer response parse failure")
        | some true => .error .CheckFail
        | some false => .ok ()

/-- `handle_signed_method_call` (zend-worker/src/websocket.rs), returning the
list of messages sent back on the socket: any admission failure is answered
with `call_error(call_id, InvalidSignature, None)`; an admitted call is
dispatched and its outcome wrapped (`WorkerError` becomes a default-message
`InternalError`, a method error is forwarded verbatim). -/
def handle_signed_method_call (env : ServerEnv) (signed_call : SignedMethodCall) :
    List ServerToClientMessage :=
  match check_signed_method_call env signed_call with
  | .error _ =>
      [ServerToClientMessage.call_error signed_call.call_id .InvalidSignature none]
  | .ok _ =>
    let common_args := signed_call.signed_call.call.common_arguments
    let variant_args := signed_call.signed_call.call.variant_arguments
    let result := env.handlerResult common_args variant_args
    let to_send := match result with
      | .ok result => ServerToClientMessage.from_success signed_call.call_id result
      | .error (.WorkerError _) =>
          ServerToClientMessage.from_error signed_call.call_id
            ErrorId.InternalError.with_default_message
      | .error (.MethodError err) =>
          ServerToClientMessage.from_error signed_call.call_id err
    [to_send]

/-- `handle_parsed_message` (zend-worker/src/websocket.rs), returning the
messages sent back: `Ping` is answered with `Pong`, a `Partial(call_id)` with
a correlated default-message `ParseError`, and a full signed call is passed to
`handle_signed_method_call`. -/
def handle_parsed_message (env : ServerEnv) (message : ClientToServerMessage) :
    List ServerToClientMessage :=
  match message with
  | .Ping => [.Pong]
  | .SignedMethodCall (.Partial call_id) =>
      [ServerToClientMessage.from_error call_id ErrorId.ParseError.with_default_message]
  | .SignedMethodCall (.Full signed_call) => handle_signed_method_call env signed_call

/-! ### Client event bus (zend-leptos/src/wsclient.rs) -/

/-- `ApiClientEvent`. -/
inductive ApiClientEvent where
  | Connected : ApiClientEvent
  | Reconnecting (secs : Nat) : ApiClientEvent
  | ApiMessage (m : ServerToClientMessage) : ApiClientEvent
  | Ended : ApiClientEvent
deriving Repr

/-- `SubscriptionEventFilterItem`. -/
inductive SubscriptionEventFilterItem where
  | Any : SubscriptionEventFilterItem
  | Connected : SubscriptionEventFilterItem
  | Reconnecting : SubscriptionEventFilterItem
  | ApiMethodCallReturn (call_id : Option Nat) : SubscriptionEventFilterItem
  | ApiSubscriptionData (subscription_id : Option Nat) : SubscriptionEventFilterItem
  | ApiPong : SubscriptionEventFilterItem
  | ApiInfo : SubscriptionEventFilterItem
  | Ended : SubscriptionEventFilterItem
deriving Repr, DecidableEq

/-- `event_is_matched_by_any_filter`: OR over the subscriber's filters. -/
def event_is_matched_by_any_filter (event : ApiClientEvent)
    (filters : List SubscriptionEventFilterItem) : Bool :=
  filters.any fun filter =>
    match filter with
    | .Any => true
    | .ApiMethodCallReturn (some filter_call_id) =>
        match event with
        | .ApiMessage (.MethodCallReturn r) => filter_call_id == r.call_id
        | _ => false
    | .ApiSubscriptionData (some filter_sub_id) =>
        match event with
        | .ApiMessage (.SubscriptionData d) => filter_sub_id == d.subscription_id
        | _ => false
    | .ApiMethodCallReturn none =>
        match event with
        | .ApiMessage (.MethodCallReturn _) => true
        | _ => false
    | .ApiSubscriptionData none =>
        match event with
        | .ApiMessage (.SubscriptionData _) => true
        | _ => false
    | .ApiPong =>
        match event with
        | .ApiMessage .Pong => true
        | _ => false
    | .ApiInfo =>
        match event with
        | .ApiMessage (.Info _) => true
        | _ => false
    | .Connected =>
        match event with
        | .Connected => true
        | _ => false
    | .Reconnecting =>
        match event with
        | .Reconnecting _ => true
        | _ => false
    | .Ended =>
        match event with
        | .Ended => true
        | _ => false

/-- `EventSubscriptionType`. -/
inductive EventSubscriptionType where
  | Once : EventSubscriptionType
  | Persistent : EventSubscriptionType
deriving Repr, DecidableEq

/-- State of a subscriber's `futures::mpsc` delivery channel as `try_send`
observes it: deliverable, full (send fails, `is_disconnected()` false), or
disconnected (receiver dropped). -/
inductive SenderChannel where
  | ok : SenderChannel
  | full : SenderChannel
  | disconnected : SenderChannel
deriving Repr, DecidableEq

/-- `EventSubscription`: the registered filters, the delivery channel, the
subscription type and the registry id. -/
structure EventSubscription where
  event_filters : List SubscriptionEventFilterItem
  sender : SenderChannel
  subscriber_type : EventSubscriptionType
  id : Nat
deriving Repr, DecidableEq

/-- `Vec::swap_remove(i)`: the last element is moved into position `i` and the
vector shrinks by one (recursion-friendly form; `swapRemove_eq_set_dropLast`
below checks it against the set-last-then-drop-last characterisation). -/
def swapRemove : List EventSubscription → Nat → List EventSubscription
  | [], _ => []
  | _ :: xs, 0 =>
      match xs.getLast? with
      | none => []
      | some last => last :: xs.dropLast
  | x :: xs, j + 1 => x :: swapRemove xs j

/-- The subscriber-dispatch loop of `handle_event` (wsclient.rs lines
396-425), with fuel for the decreasing measure `subs.length - i`.  Returns the
final subscriber list, the ids delivered to (`try_send` on a deliverable
channel), and — as ghost instrumentation only — the ids in the order the loop
examined them.  A non-matching subscriber is skipped (`i + 1`); a matching
subscriber whose channel is disconnected is `swap_remove`d without
incrementing `i`; a matching `Once` subscriber is closed and `swap_remove`d
without incrementing `i` (whether or not its channel accepted the event); a
matching `Persistent` subscriber is kept (`i + 1`). -/
def handleEventLoop (event : ApiClientEvent) :
    Nat → List EventSubscription → Nat →
    List EventSubscription × List Nat × List Nat
  | 0, subs, _ => (subs, [], [])
  | fuel + 1, subs, i =>
    if h : i < subs.length then
      let subscriber := subs[i]
      if ¬ event_is_matched_by_any_filter event subscriber.event_filters then
        let r := handleEventLoop event fuel subs (i + 1)
        (r.1, r.2.1, subscriber.id :: r.2.2)
      else
        match subscriber.sender with
        | .disconnected =>
            let r := handleEventLoop event fuel (swapRemove subs i) i
            (r.1, r.2.1, subscriber.id :: r.2.2)
        | .ok =>
            match subscriber.subscriber_type with
            | .Once =>
                let r := handleEventLoop event fuel (swapRemove subs i) i
                (r.1, subscriber.id :: r.2.1, subscriber.id :: r.2.2)
            | .Persistent =>
                let r := handleEventLoop event fuel subs (i + 1)
                (r.1, subscriber.id :: r.2.1, subscriber.id :: r.2.2)
        | .full =>
            match subscriber.subscriber_type with
            | .Once =>
                let r := handleEventLoop event fuel (swapRemove subs i) i
                (r.1, r.2.1, subscriber.id :: r.2.2)
            | .Persistent =>
                let r := handleEventLoop event fuel subs (i + 1)
                (r.1, r.2.1, subscriber.id :: r.2.2)
    else (subs, [], [])

/-- `handle_event`'s fan-out pass over the current subscribers for one
classified event.  `subs.length` fuel suffices since every iteration strictly
decreases `subs.length - i`. -/
def handle_event (event : ApiClientEvent) (subs : List EventSubscription) :
    List EventSubscription × List Nat × List Nat :=
  handleEventLoop event subs.length subs 0

/-! ### Reconnect backoff (zend-leptos/src/wsclient.rs, `WebSocketWrap`) -/

/-- `WsMessage` (ws_stream_wasm). -/
inductive WsMessage where
  | text (s : String) : WsMessage
  | binary (b : List Nat) : WsMessage
deriving Repr

/-- `WrappedSocketEvent`. -/
inductive WrappedSocketEvent where
  | Connected : WrappedSocketEvent
  | Reconnecting (secs : Nat) : WrappedSocketEvent
  | TextMessage (s : String) : WrappedSocketEvent
  | BinaryMessage (b : List Nat) : WrappedSocketEvent
  | Ended (reason : String) : WrappedSocketEvent
deriving Repr

/-- Outcome of one `WebSocketWrap::connect` attempt: a successful upgrade, or
a failure (`WsErr` or the 5-second connect timeout, treated identically). -/
inductive ConnectOutcome where
  | ok : ConnectOutcome
  | err : ConnectOutcome
deriving Repr, DecidableEq

/-- What awaiting the open socket produced: a frame, end of stream, or the
idle close timeout. -/
inductive SocketPoll where
  | msg (m : WsMessage) : SocketPoll
  | closed : SocketPoll
  | timedOut : SocketPoll
deriving Repr

/-- `WebSocketWrap` connection-manager state (the `url` and `close_timeout`
fields carry no protocol state and are omitted; `ws` records whether a socket
is currently open). -/
structure WebSocketWrap where
  finished : Bool
  ws : Bool
  retry_after : Nat
deriving Repr, DecidableEq

/-- `WebSocketWrap::new`: `retry_after` starts at 0 (connect immediately). -/
def WebSocketWrap.new : WebSocketWrap :=
  { finished := false, ws := false, retry_after := 0 }

/-- `WebSocketWrap::next_event`: one step of the reconnecting-socket state
machine.  `poll` is what the open socket produced (when one is open) and
`conn` the outcome of a connect attempt (when none is).  While no socket is
open: a `retry_after` of 0 connects immediately; otherwise the step sleeps
`retry_after` seconds and doubles it, capped at 60; a successful connect
resets it to 0, a failed one reports `Reconnecting(retry_after)`. -/
def WebSocketWrap.next_event (w : WebSocketWrap) (poll : SocketPoll) (conn : ConnectOutcome) :
    Option WrappedSocketEvent × WebSocketWrap :=
  if w.finished then (none, w)
  else if w.ws then
    match poll with
    | .timedOut => (some (.Reconnecting w.retry_after), { w with ws := false })
    | .msg (.text s) => (some (.TextMessage s), w)
    | .msg (.binary b) => (some (.BinaryMessage b), w)
    | .closed => (some (.Reconnecting w.retry_after), { w with ws := false })
  else
    let w := if w.retry_after > 0 then
        { w with retry_after := if w.retry_after * 2 > 60 then 60 else w.retry_after * 2 }
      else
        { w with retry_after := 5 }
    match conn with
    | .ok => (some .Connected, { w with retry_after := 0, ws := true })
    | .err => (some (.Reconnecting w.retry_after), w)

/-- The state after `n` consecutive failed connect attempts, starting from a
given state. -/
def backoffIter (w : WebSocketWrap) : Nat → WebSocketWrap
  | 0 => w
  | n + 1 => (backoffIter w n |>.next_event .closed .err).2

/-- A concrete `CreateRoom` signed call with a chosen nonce timestamp, used as
a test input (its signature is the idealised signature of caller key 1 over
the stored JSON `""`). -/
def sampleCall (ts : Nat) : SignedMethodCall :=
  { call_id := 7
    signed_call :=
      { json := ""
        call :=
          { common_arguments := { caller_id := ⟨⟨1⟩⟩, nonce := { id := 0, timestamp := ts } }
            variant_arguments := .CreateRoom } }
    signature := ⟨⟨1, ""⟩⟩ }

/-- `ecdsaVerify` succeeds exactly on the idealised signature of the matching
key over the byte-identical message. -/
theorem ecdsaVerify_eq_true_iff (vk : VerifyingKey) (msg : String) (sig : EcdsaSig) :
    ecdsaVerify vk msg sig = true ↔ sig = ecdsaSign ⟨vk.key⟩ msg := by
  cases sig
  simp [ecdsaVerify, ecdsaSign, EcdsaSig.mk.injEq, and_comm]

/-! ## Claims -/

/-- Claim C1: server-side admission of a full `SignedMethodCall` succeeds
exactly when the signature validates, the timestamp validates, and the Peer
actor's ledger reports the nonce as not previously used; and every admission
failure is answered with the same `MethodCallReturn` error — `error_id`
`InvalidSignature`, `message` `None` — carrying no detail that distinguishes a
bad signature from a stale timestamp or a replayed nonce. -/
theorem c1_admission (env : ServerEnv) (sc : SignedMethodCall) :
    (check_signed_method_call env sc = .ok () ↔
      (sc.validate_signature = .ok () ∧ sc.validate_timestamp env.now = true ∧
        (∃ body, env.peerResponse = .ok body ∧ parseJsonBool body = some false))) ∧
    (∀ e, check_signed_method_call env sc = .error e →
      handle_signed_method_call env sc
        = [ServerToClientMessage.call_error sc.call_id .InvalidSignature none]) := by
  constructor
  · unfold check_signed_method_call
    cases hsig : sc.validate_signature with
    | error e => simp [hsig]
    | ok u =>
      cases u
      by_cases hts : sc.validate_timestamp env.now
      · cases hresp : env.peerResponse with
        | error e => simp [hts, hresp]
        | ok body =>
          cases hbool : parseJsonBool body with
          | none => simp [hts, hresp, hbool]
          | some b => cases b <;> simp [hts, hresp, hbool]
      · simp [hts]
  · intro e he
    unfold handle_signed_method_call
    rw [he]

/-- Claim C1 witness: a concrete call whose timestamp check fails is answered
with the uniform `InvalidSignature` error. -/
theorem c1_admission_witness :
    handle_signed_method_call
        { now := 0, peerResponse := .error "rpc down",
          handlerResult := fun _ _ => .error (.WorkerError "unused") }
        (sampleCall 400)
      = [ServerToClientMessage.call_error 7 .InvalidSignature none] :=
  (c1_admission
      { now := 0, peerResponse := .error "rpc down",
        handlerResult := fun _ _ => .error (.WorkerError "unused") }
      (sampleCall 400)).2 .CheckFail rfl

/-- Claim C2: `sign` serialises the content to its canonical JSON exactly
once, signs exactly those JSON bytes, and retains that JSON string;
`validate_signature` verifies the stored JSON bytes against the embedded
caller public key (it depends only on the stored bytes, the embedded key and
the signature — never on a re-serialisation of the parsed struct), so it
succeeds exactly when the signature was produced over byte-identical JSON by
the caller's key, and replacing the stored JSON with any other string makes
validation fail. -/
theorem c2_sign_verify (c : MethodCallContent) (call_id : Nat) (sk : SigningKey)
    (hkey : c.common_arguments.caller_id = ⟨sk.verifyingKey⟩) :
    (c.sign call_id sk
      = { call_id := call_id
          signed_call := { json := serializeMethodCallContent c, call := c }
          signature := ⟨ecdsaSign sk (serializeMethodCallContent c)⟩ }) ∧
    ((c.sign call_id sk).validate_signature = .ok ()) ∧
    (∀ json2, json2 ≠ serializeMethodCallContent c →
      SignedMethodCall.validate_signature
        { c.sign call_id sk with signed_call := { json := json2, call := c } } = .error ()) ∧
    (∀ sc : SignedMethodCall,
      sc.validate_signature = .ok () ↔
        sc.signature.sig
          = ecdsaSign ⟨sc.signed_call.call.common_arguments.caller_id.vk.key⟩
              sc.signed_call.json) ∧
    (∀ sc1 sc2 : SignedMethodCall,
      sc1.signed_call.call.common_arguments.caller_id
          = sc2.signed_call.call.common_arguments.caller_id →
      sc1.signed_call.json = sc2.signed_call.json →
      sc1.signature = sc2.signature →
      sc1.validate_signature = sc2.validate_signature) := by
  have hval : ∀ sc : SignedMethodCall,
      sc.validate_signature = .ok () ↔
        sc.signature.sig
          = ecdsaSign ⟨sc.signed_call.call.common_arguments.caller_id.vk.key⟩
              sc.signed_call.json := by
    intro sc
    unfold SignedMethodCall.validate_signature
    rw [← ecdsaVerify_eq_true_iff]
    split_ifs with h <;> simp [h]
  refine ⟨rfl, ?_, ?_, hval, ?_⟩
  · rw [hval]
    simp [MethodCallContent.sign, MethodCall.tryFromContent, hkey, SigningKey.verifyingKey,
      ecdsaSign]
  · intro json2 hne
    unfold SignedMethodCall.validate_signature
    rw [if_neg]
    intro hcontra
    rw [ecdsaVerify_eq_true_iff] at hcontra
    simp [MethodCallContent.sign, MethodCall.tryFromContent, ecdsaSign, hkey] at hcontra
    exact hne hcontra.2.symm
  · intro sc1 sc2 h1 h2 h3
    unfold SignedMethodCall.validate_signature
    rw [h1, h2, h3]

/-- Claim C2 witness: a concrete `CreateRoom` content signed by its own
caller's key validates, and validation over any mutated JSON fails. -/
theorem c2_sign_verify_witness :
    ((⟨⟨⟨⟨1⟩⟩, ⟨0, 5⟩⟩, .CreateRoom⟩ : MethodCallContent).sign 7 ⟨1⟩).validate_signature
      = .ok () :=
  (c2_sign_verify ⟨⟨⟨⟨1⟩⟩, ⟨0, 5⟩⟩, .CreateRoom⟩ 7 ⟨1⟩ rfl).2.1

/-- Claim C3 counterexample: the claim asserts that for every time `now`,
timestamps with `now - 299 ≤ ts ≤ now + 9` validate; at `now = 299` and
`ts = 0` (which satisfies `299 - 299 ≤ 0 ≤ 299 + 9`) the code rejects,
because `now - 5 * 60` is wrapping `u64` subtraction and `now < 300` wraps
the past bound to `2^64 - 1`. -/
theorem c3_counterexample :
    299 - 299 ≤ (sampleCall 0).signed_call.call.common_arguments.nonce.timestamp ∧
    (sampleCall 0).signed_call.call.common_arguments.nonce.timestamp ≤ 299 + 9 ∧
    (sampleCall 0).validate_timestamp 299 = false := by
  refine ⟨by decide, by decide, ?_⟩
  decide

/-- Claim C3 (amended: for every `now` in the non-wrapping range `300 ≤ now`,
`now + 10 < 2^64`): `validate_timestamp` is true exactly when
`now - 300 < ts < now + 10`; in particular it is true for
`now - 299 ≤ ts ≤ now + 9` and false at exactly the two exclusive bounds
`ts = now - 300` and `ts = now + 10`. -/
theorem c3_timestamp_window (sc : SignedMethodCall) (now : Nat)
    (hlo : 300 ≤ now) (hhi : now + 10 < u64Mod) :
    (sc.validate_timestamp now = true ↔
      (now - 300 < sc.signed_call.call.common_arguments.nonce.timestamp ∧
        sc.signed_call.call.common_arguments.nonce.timestamp < now + 10)) ∧
    (now - 299 ≤ sc.signed_call.call.common_arguments.nonce.timestamp ∧
        sc.signed_call.call.common_arguments.nonce.timestamp ≤ now + 9 →
      sc.validate_timestamp now = true) ∧
    (sc.signed_call.call.common_arguments.nonce.timestamp = now - 300 →
      sc.validate_timestamp now = false) ∧
    (sc.signed_call.call.common_arguments.nonce.timestamp = now + 10 →
      sc.validate_timestamp now = false) := by
  have hadd : wrapAdd now 10 = now + 10 := by
    unfold wrapAdd u64Mod at *
    omega
  have hsub : wrapSub now (5 * 60) = now - 300 := by
    unfold wrapSub u64Mod at *
    omega
  unfold SignedMethodCall.validate_timestamp
  rw [hadd, hsub]
  refine ⟨by simp only [Bool.and_eq_true, decide_eq_true_eq]; rw [and_comm], ?_, ?_, ?_⟩
  · intro h
    simp only [Bool.and_eq_true, decide_eq_true_eq]
    omega
  · intro h
    rw [h]
    simp
  · intro h
    rw [h]
    simp

/-- Claim C3 witness: at `now = 1000` the window behaves as stated for a
timestamp inside it. -/
theorem c3_timestamp_window_witness :
    (sampleCall 995).validate_timestamp 1000 = true :=
  (c3_timestamp_window (sampleCall 995) 1000 (by decide) (by decide)).2.1 (by decide)

/-- Claim C4: for every valid nonce (one whose `u64` counter does not
overflow) and every time `T ≥ N.timestamp`, `N.next(T)` carries timestamp `T`,
and its counter is 0 exactly when `T > N.timestamp`, otherwise
`N.id + 1`. -/
theorem c4_nonce_next (N : Nonce) (T : Nat) (hT : N.timestamp ≤ T)
    (hid : N.id + 1 < u64Mod) :
    (N.next T).timestamp = T ∧
    ((N.next T).id = 0 ↔ T > N.timestamp) ∧
    (¬ T > N.timestamp → (N.next T).id = N.id + 1) := by
  unfold Nonce.next
  refine ⟨rfl, ?_, ?_⟩
  · by_cases h : T > N.timestamp
    · simp [h]
    · simp only [h, if_false]
      rw [Nat.mod_eq_of_lt hid]
      simp [h]
  · intro h
    simp only [h, if_false]
    exact Nat.mod_eq_of_lt hid

/-- Claim C4 witness: advancing time resets the counter; a repeated time
increments it. -/
theorem c4_nonce_next_witness :
    ((Nonce.next ⟨3, 5⟩ 7).timestamp = 7 ∧ ((Nonce.next ⟨3, 5⟩ 7).id = 0 ↔ 7 > 5)) ∧
    (¬ (5 > 5) → (Nonce.next ⟨3, 5⟩ 5).id = 3 + 1) :=
  ⟨⟨(c4_nonce_next ⟨3, 5⟩ 7 (by decide) (by norm_num [u64Mod])).1,
    (c4_nonce_next ⟨3, 5⟩ 7 (by decide) (by norm_num [u64Mod])).2.1⟩,
   (c4_nonce_next ⟨3, 5⟩ 5 (by decide) (by norm_num [u64Mod])).2.2⟩

/-- Claim C6: constructing a `RoomId` from any integer `≥ 26^6` fails loudly
(the `assert!` panics, modelled as `none`) — it is never silently reduced —
while the serialize direction (`Into<String>`) reduces the stored integer
modulo `26^6`. -/
theorem c6_roomid_range :
    (∀ n, 26 ^ 6 ≤ n → RoomId.from_int n = none) ∧
    (∀ n, RoomId.intoString ⟨n⟩ = RoomId.intoString ⟨n % 26 ^ 6⟩) := by
  constructor
  · intro n h
    unfold RoomId.from_int
    rw [if_neg]
    omega
  · intro n
    unfold RoomId.intoString
    rw [show n % 26 ^ 6 % 26 ^ 6 = n % 26 ^ 6 from Nat.mod_mod_of_dvd n dvd_rfl]

/-- Claim C6 witness: `26^6` itself is rejected by `from_int` and reduced by
the serialize direction. -/
theorem c6_roomid_range_witness :
    RoomId.from_int (26 ^ 6) = none ∧
    RoomId.intoString ⟨26 ^ 6⟩ = RoomId.intoString ⟨26 ^ 6 % 26 ^ 6⟩ :=
  ⟨c6_roomid_range.1 (26 ^ 6) (le_refl _), c6_roomid_range.2 (26 ^ 6)⟩

/-- Claim C7: a `SignedMethodCall` wire object that fails to fully parse but
carries a recoverable `call_id` degrades to `Partial(call_id)` rather than
failing, and the server answers that `Partial` with a `MethodCallReturn`
carrying the same `call_id` and `error_id` `ParseError`. -/
theorem c7_partial_degrade (fullParse : Json → Option SignedMethodCall)
    (p : SignedMethodCallPartial) (env : ServerEnv)
    (hfail : signedMethodCallPartialFallible fullParse p = none) :
    SignedMethodCallOrPartial.fromPartial fullParse p = .Partial p.call_id ∧
    handle_parsed_message env (.SignedMethodCall (.Partial p.call_id))
      = [ServerToClientMessage.MethodCallReturn
          { call_id := p.call_id
            return_data := .Error { error_id := .ParseError
                                    message := some "The request could not be parsed." } }] := by
  constructor
  · unfold SignedMethodCallOrPartial.fromPartial
    rw [hfail]
  · rfl

/-- Claim C7 witness: a partial whose remainder never re-parses degrades to
`Partial(7)` and is answered with a correlated `ParseError`. -/
theorem c7_partial_degrade_witness :
    SignedMethodCallOrPartial.fromPartial (fun _ => none) ⟨7, .obj []⟩ = .Partial 7 ∧
    handle_parsed_message
        { now := 0, peerResponse := .error "unused",
          handlerResult := fun _ _ => .error (.WorkerError "unused") }
        (.SignedMethodCall (.Partial 7))
      = [ServerToClientMessage.MethodCallReturn
          { call_id := 7
            return_data := .Error { error_id := .ParseError
                                    message := some "The request could not be parsed." } }] :=
  c7_partial_degrade (fun _ => none) ⟨7, .obj []⟩
    { now := 0, peerResponse := .error "unused",
      handlerResult := fun _ _ => .error (.WorkerError "unused") }
    rfl

/-- `Char.ofNat` round-trips on valid scalar values below the surrogate range. -/
theorem char_toNat_ofNat (n : Nat) (h : n < 55296) : (Char.ofNat n).toNat = n := by
  unfold Char.ofNat
  rw [dif_pos (Or.inl h : Nat.isValidChar n)]
  rfl

/-- An uppercase ASCII letter is fixed by `make_ascii_uppercase`. -/
theorem makeAsciiUppercase_of_upper (c : Char) (h1 : 65 ≤ c.toNat) (h2 : c.toNat ≤ 90) :
    makeAsciiUppercase c = c := by
  unfold makeAsciiUppercase
  rw [if_neg]
  omega

/-- An uppercase ASCII letter passes `is_ascii_uppercase`. -/
theorem isAsciiUppercase_of_upper (c : Char) (h1 : 65 ≤ c.toNat) (h2 : c.toNat ≤ 90) :
    isAsciiUppercase c = true := by
  simp only [isAsciiUppercase, Bool.and_eq_true, decide_eq_true_eq]
  omega

/-- Uppercasing an ASCII letter yields an uppercase ASCII letter. -/
theorem isAsciiUppercase_makeAsciiUppercase (c : Char) (h : isAsciiAlpha c = true) :
    isAsciiUppercase (makeAsciiUppercase c) = true := by
  simp only [isAsciiAlpha, Bool.or_eq_true, Bool.and_eq_true, decide_eq_true_eq] at h
  unfold makeAsciiUppercase
  rcases h with h | h
  · rw [if_neg (by omega)]
    exact isAsciiUppercase_of_upper c h.1 h.2
  · rw [if_pos (by omega)]
    have ht : (Char.ofNat (c.toNat - 32)).toNat = c.toNat - 32 :=
      char_toNat_ofNat _ (by omega)
    simp only [isAsciiUppercase, ht, Bool.and_eq_true, decide_eq_true_eq]
    omega

/-- A character that is not an ASCII letter is fixed by `make_ascii_uppercase`
and fails `is_ascii_uppercase`. -/
theorem not_alpha_fails (c : Char) (h : isAsciiAlpha c = false) :
    makeAsciiUppercase c = c ∧ isAsciiUppercase c = false := by
  simp only [isAsciiAlpha, Bool.or_eq_false_iff, Bool.and_eq_false_iff,
    decide_eq_false_iff_not, not_le] at h
  constructor
  · unfold makeAsciiUppercase
    rw [if_neg]
    omega
  · simp only [isAsciiUppercase, Bool.and_eq_false_iff, decide_eq_false_iff_not, not_le]
    omega

/-- The render loop produces the little-endian base-26 digits (as letters) of
its input, one per iteration. -/
theorem roomIdRenderLoop_digits (k : Nat) : ∀ input,
    roomIdRenderLoop input k
      = (List.range k).map (fun j => Char.ofNat (input / 26 ^ j % 26 + 65)) := by
  induction k with
  | zero => intro input; simp [roomIdRenderLoop]
  | succ k ih =>
    intro input
    rw [List.range_succ_eq_map, List.map_cons, List.map_map]
    simp only [roomIdRenderLoop]
    by_cases h : input > 0
    · rw [if_pos h, ih (input / 26)]
      congr 1
      · norm_num
      · apply List.map_congr_left
        intro j _
        simp only [Function.comp_apply]
        rw [Nat.div_div_eq_div_mul, ← pow_succ']
    · have h0 : input = 0 := by omega
      subst h0
      rw [if_neg h, ih 0]
      have hA : Char.ofNat 65 = 'A' := by decide
      simp [Nat.zero_div, hA, Function.comp_def, List.map_const']

/-- Claim C5: every 6-character string over the uppercase letters A-Z parses
to a `RoomId` that renders back to the same string, and every string whose
length is not 6 or that contains a character that is not an ASCII letter fails
to parse (non-letters are a fortiori not ASCII letters). -/
theorem c5_roomid_roundtrip (S : String) :
    (S.length = 6 → (∀ c ∈ S.data, 65 ≤ c.toNat ∧ c.toNat ≤ 90) →
      ∃ r, RoomId.tryFromString S = .ok r ∧ RoomId.intoString r = S) ∧
    ((S.length ≠ 6 ∨ ∃ c ∈ S.data, isAsciiAlpha c = false) →
      ∃ msg, RoomId.tryFromString S = .error msg) := by
  constructor
  · intro h6 hval
    have hdata : S.data.length = 6 := h6
    obtain ⟨a, b, c, d, e, f, hS⟩ : ∃ a b c d e f, S.data = [a, b, c, d, e, f] := by
      rcases hl : S.data with _ | ⟨a, _ | ⟨b, _ | ⟨c, _ | ⟨d, _ | ⟨e, _ | ⟨f, _ | ⟨g, t⟩⟩⟩⟩⟩⟩⟩ <;>
        rw [hl] at hdata <;> simp at hdata
      exact ⟨a, b, c, d, e, f, rfl⟩
    have ha := hval a (by rw [hS]; simp)
    have hb := hval b (by rw [hS]; simp)
    have hc := hval c (by rw [hS]; simp)
    have hd := hval d (by rw [hS]; simp)
    have he := hval e (by rw [hS]; simp)
    have hf := hval f (by rw [hS]; simp)
    have hparse : roomIdParseLoop [a, b, c, d, e, f] 5 0
        = .ok (26 ^ 5 * (a.toNat - 65) + 26 ^ 4 * (b.toNat - 65) + 26 ^ 3 * (c.toNat - 65)
            + 26 ^ 2 * (d.toNat - 65) + 26 * (e.toNat - 65) + (f.toNat - 65)) := by
      simp [roomIdParseLoop,
        makeAsciiUppercase_of_upper a ha.1 ha.2, isAsciiUppercase_of_upper a ha.1 ha.2,
        makeAsciiUppercase_of_upper b hb.1 hb.2, isAsciiUppercase_of_upper b hb.1 hb.2,
        makeAsciiUppercase_of_upper c hc.1 hc.2, isAsciiUppercase_of_upper c hc.1 hc.2,
        makeAsciiUppercase_of_upper d hd.1 hd.2, isAsciiUppercase_of_upper d hd.1 hd.2,
        makeAsciiUppercase_of_upper e he.1 he.2, isAsciiUppercase_of_upper e he.1 he.2,
        makeAsciiUppercase_of_upper f hf.1 hf.2, isAsciiUppercase_of_upper f hf.1 hf.2]
    set n := 26 ^ 5 * (a.toNat - 65) + 26 ^ 4 * (b.toNat - 65) + 26 ^ 3 * (c.toNat - 65)
      + 26 ^ 2 * (d.toNat - 65) + 26 * (e.toNat - 65) + (f.toNat - 65) with hn
    refine ⟨⟨n⟩, ?_, ?_⟩
    · unfold RoomId.tryFromString
      rw [hS, hparse]
      rfl
    · have hlt : n < 26 ^ 6 := by omega
      calc RoomId.intoString ⟨n⟩ = String.mk [a, b, c, d, e, f] := by
            unfold RoomId.intoString
            rw [Nat.mod_eq_of_lt hlt, roomIdRenderLoop_digits 6 n]
            rw [show List.range 6 = [0, 1, 2, 3, 4, 5] from rfl]
            simp only [List.map_cons, List.map_nil, List.reverse_cons, List.reverse_nil,
              List.nil_append, List.cons_append]
            rw [show n / 26 ^ 5 % 26 + 65 = a.toNat from by omega]
            rw [show n / 26 ^ 4 % 26 + 65 = b.toNat from by omega]
            rw [show n / 26 ^ 3 % 26 + 65 = c.toNat from by omega]
            rw [show n / 26 ^ 2 % 26 + 65 = d.toNat from by omega]
            rw [show n / 26 ^ 1 % 26 + 65 = e.toNat from by omega]
            rw [show n / 26 ^ 0 % 26 + 65 = f.toNat from by omega]
            simp [Char.ofNat_toNat]
        _ = String.mk S.data := by rw [hS]
        _ = S := rfl
  · intro hbad
    unfold RoomId.tryFromString
    have key : ∀ (cs : List Char) (ex : Int) (acc : Nat), -1 ≤ ex →
        ((cs.length : Int) ≠ ex + 1 ∨ ∃ c ∈ cs, isAsciiAlpha c = false) →
        ∃ msg, roomIdParseLoop cs ex acc = .error msg := by
      intro cs
      induction cs with
      | nil =>
        intro ex acc hex h
        rcases h with h | ⟨c, hcmem, _⟩
        · simp only [List.length_nil, Nat.cast_zero] at h
          exact ⟨_, by simp only [roomIdParseLoop]; rw [if_pos (by omega)]⟩
        · cases hcmem
      | cons c rest ih =>
        intro ex acc hex h
        simp only [roomIdParseLoop]
        by_cases hneg : ex < 0
        · exact ⟨_, by rw [if_pos hneg]⟩
        · rw [if_neg hneg]
          by_cases halpha : isAsciiAlpha c
          · have hup := isAsciiUppercase_makeAsciiUppercase c halpha
            simp [hup]
            apply ih (ex - 1) _ (by omega)
            rcases h with h | ⟨x, hxmem, hx⟩
            · left
              simp only [List.length_cons] at h ⊢
              push_cast at h ⊢
              omega
            · rcases List.mem_cons.mp hxmem with rfl | hxr
              · rw [halpha] at hx
                cases hx
              · exact Or.inr ⟨x, hxr, hx⟩
          · have hfalse : isAsciiAlpha c = false := by
              revert halpha
              cases isAsciiAlpha c <;> simp
            have hne := not_alpha_fails c hfalse
            exact ⟨"ID contains invalid characters", by simp [hne.1, hne.2]⟩
    have hb2 : ((S.data.length : Int) ≠ 5 + 1 ∨ ∃ c ∈ S.data, isAsciiAlpha c = false) := by
      rcases hbad with h | h
      · left
        have : S.length = S.data.length := rfl
        omega
      · exact Or.inr h
    obtain ⟨msg, hmsg⟩ := key S.data 5 0 (by omega) hb2
    exact ⟨msg, by rw [hmsg]; rfl⟩

/-- Claim C5 witness: "ABCDEF" parses and renders back; "AB!DEF" fails to
parse. -/
theorem c5_roomid_roundtrip_witness :
    (∃ r, RoomId.tryFromString "ABCDEF" = .ok r ∧ RoomId.intoString r = "ABCDEF") ∧
    (∃ msg, RoomId.tryFromString "AB!DEF" = .error msg) :=
  ⟨(c5_roomid_roundtrip "ABCDEF").1 rfl (by decide),
   (c5_roomid_roundtrip "AB!DEF").2 (Or.inr ⟨Char.ofNat 33, by decide, by decide⟩)⟩

/-- Claim C9: `retry_after` starts at 0 (connect immediately), the events
emitted by five consecutive failed connect attempts report 5, 10, 20, 40, 60
seconds (observed sequence 0, 5, 10, 20, 40, 60), and a step of the state
machine never pushes `retry_after` above 60. -/
theorem c9_backoff :
    WebSocketWrap.new.retry_after = 0 ∧
    ((List.range 5).map
        (fun k => ((backoffIter WebSocketWrap.new k).next_event .closed .err).1)
      = [5, 10, 20, 40, 60].map (fun n => some (WrappedSocketEvent.Reconnecting n))) ∧
    (∀ (w : WebSocketWrap) (poll : SocketPoll) (conn : ConnectOutcome),
      w.retry_after ≤ 60 → ((w.next_event poll conn).2).retry_after ≤ 60) := by
  refine ⟨rfl, rfl, ?_⟩
  intro w poll conn h
  cases poll with
  | msg m =>
    cases m <;> cases conn <;> by_cases hf : w.finished <;> by_cases hw : w.ws <;>
      simp [WebSocketWrap.next_event, hf, hw] <;> (try split_ifs) <;> (try simp) <;> omega
  | closed =>
    cases conn <;> by_cases hf : w.finished <;> by_cases hw : w.ws <;>
      simp [WebSocketWrap.next_event, hf, hw] <;> (try split_ifs) <;> (try simp) <;> omega
  | timedOut =>
    cases conn <;> by_cases hf : w.finished <;> by_cases hw : w.ws <;>
      simp [WebSocketWrap.next_event, hf, hw] <;> (try split_ifs) <;> (try simp) <;> omega

/-- Claim C9 witness: one failed step from the initial state keeps
`retry_after` within the 60-second cap. -/
theorem c9_backoff_witness :
    ((WebSocketWrap.new.next_event .closed .err).2).retry_after ≤ 60 :=
  c9_backoff.2.2 WebSocketWrap.new .closed .err (by decide)

/-- Claim C10 counterexample: the claim asserts that for every call, whenever
`now < 300` the subtraction underflows (a debug-build panic); but `&&`
short-circuits, so a call whose timestamp fails the future-bound check
(`ts ≥ now + 10`) returns `false` without ever evaluating `now - 5 * 60`:
at `now = 0` with `ts = 400` the debug build returns `Some false`, it does
not panic. -/
theorem c10_counterexample :
    (0 : Nat) < 300 ∧ (sampleCall 400).validate_timestampDebug 0 = some false := by
  constructor
  · decide
  · decide

/-- Claim C10 (amended: whenever `now < 300` and the evaluation reaches the
subtraction, i.e. the timestamp passes the future-bound check
`ts < now + 10`): the unchecked `u64` subtraction `now - 5 * 60` underflows —
a debug build panics (`none`) — and in release builds the wrapped bound makes
`validate_timestamp` reject every timestamp. -/
theorem c10_underflow (sc : SignedMethodCall) (now : Nat) (h : now < 300) :
    (sc.signed_call.call.common_arguments.nonce.timestamp < now + 10 →
      sc.validate_timestampDebug now = none) ∧
    sc.validate_timestamp now = false := by
  constructor
  · intro hts
    unfold SignedMethodCall.validate_timestampDebug
    rw [if_neg (by unfold u64Mod; omega), if_pos hts, if_pos (by omega)]
  · unfold SignedMethodCall.validate_timestamp wrapAdd wrapSub u64Mod
    simp only [Bool.and_eq_false_iff, decide_eq_false_iff_not, not_lt]
    omega

/-- Claim C10 witness: at `now = 0` a fresh-looking timestamp panics in debug
builds and is rejected in release builds. -/
theorem c10_underflow_witness :
    (sampleCall 5).validate_timestampDebug 0 = none ∧
    (sampleCall 5).validate_timestamp 0 = false :=
  ⟨(c10_underflow (sampleCall 5) 0 (by decide)).1 (by decide),
   (c10_underflow (sampleCall 5) 0 (by decide)).2⟩

/-- `swapRemove` agrees with `Vec::swap_remove`'s characterisation: write the
last element into position `i`, then drop the last slot. -/
theorem swapRemove_eq_set_dropLast :
    ∀ (l : List EventSubscription) (i : Nat) (last : EventSubscription),
      i < l.length → l.getLast? = some last → swapRemove l i = (l.set i last).dropLast := by
  intro l
  induction l with
  | nil => intro i last h _; simp at h
  | cons x xs ih =>
    intro i last h hlast
    cases i with
    | zero =>
      cases xs with
      | nil =>
        simp only [List.getLast?_singleton, Option.some.injEq] at hlast
        subst hlast
        rfl
      | cons y ys =>
        rw [List.getLast?_cons_cons] at hlast
        simp only [swapRemove, hlast]
        rfl
    | succ j =>
      cases xs with
      | nil => simp at h
      | cons y ys =>
        rw [List.getLast?_cons_cons] at hlast
        show x :: swapRemove (y :: ys) j = ((x :: y :: ys).set (j + 1) last).dropLast
        rw [ih j last (by simp at h ⊢; omega) hlast]
        rw [show (x :: y :: ys).set (j + 1) last = x :: (y :: ys).set j last from rfl]
        obtain ⟨z, zs, hz⟩ : ∃ z zs, (y :: ys).set j last = z :: zs := by
          cases j with
          | zero => exact ⟨last, ys, rfl⟩
          | succ j2 => exact ⟨y, ys.set j2 last, rfl⟩
        rw [hz, List.dropLast_cons₂]

/-- `swap_remove` shrinks the list by one. -/
theorem swapRemove_length :
    ∀ (l : List EventSubscription) (i : Nat), i < l.length →
      (swapRemove l i).length = l.length - 1 := by
  intro l
  induction l with
  | nil => intro i h; simp at h
  | cons x xs ih =>
    intro i h
    cases i with
    | zero =>
      cases xs with
      | nil => rfl
      | cons y ys =>
        rw [show swapRemove (x :: y :: ys) 0
            = (y :: ys).getLast (by simp) :: (y :: ys).dropLast from by
          simp only [swapRemove, List.getLast?_eq_getLast (y :: ys) (by simp)]]
        simp
    | succ j =>
      show (x :: swapRemove xs j).length = (x :: xs).length - 1
      have hj : j < xs.length := by simp at h; omega
      simp only [List.length_cons, ih j hj]
      omega

/-- `swap_remove` does not touch the elements before the removed index. -/
theorem take_swapRemove :
    ∀ (l : List EventSubscription) (i : Nat), (swapRemove l i).take i = l.take i := by
  intro l
  induction l with
  | nil => intro i; simp [swapRemove]
  | cons x xs ih =>
    intro i
    cases i with
    | zero => rfl
    | succ j =>
      show (x :: swapRemove xs j).take (j + 1) = (x :: xs).take (j + 1)
      simp only [List.take_succ_cons, ih j]

/-- The pending suffix after a `swap_remove` at the current index holds, up to
permutation, exactly the old pending suffix minus the removed element. -/
theorem drop_swapRemove_perm :
    ∀ (l : List EventSubscription) (i : Nat) (h : i < l.length),
      List.Perm (l.drop i) (l[i] :: (swapRemove l i).drop i) := by
  intro l
  induction l with
  | nil => intro i h; simp at h
  | cons x xs ih =>
    intro i h
    cases i with
    | zero =>
      cases xs with
      | nil => exact List.Perm.refl _
      | cons y ys =>
        have hne : (y :: ys : List EventSubscription) ≠ [] := by simp
        rw [show swapRemove (x :: y :: ys) 0
            = (y :: ys).getLast hne :: (y :: ys).dropLast from by
          simp only [swapRemove, List.getLast?_eq_getLast (y :: ys) hne]]
        simp only [List.drop_zero, List.getElem_cons_zero]
        refine List.Perm.cons x ?_
        conv_lhs => rw [← List.dropLast_append_getLast hne]
        exact List.perm_append_singleton _ _
    | succ j =>
      have hj : j < xs.length := by simp at h; omega
      show List.Perm ((x :: xs).drop (j + 1))
        ((x :: xs)[j + 1] :: (x :: swapRemove xs j).drop (j + 1))
      simp only [List.drop_succ_cons, List.getElem_cons_succ]
      exact ih j hj

/-- The dispatch pass visits, in some order, exactly the subscribers pending
at its starting index: its ghost visit log is a permutation of their ids. -/
theorem handleEventLoop_visited (event : ApiClientEvent) :
    ∀ (fuel : Nat) (subs : List EventSubscription) (i : Nat), subs.length - i ≤ fuel →
      List.Perm (handleEventLoop event fuel subs i).2.2
        ((subs.drop i).map (fun s => s.id)) := by
  intro fuel
  induction fuel with
  | zero =>
    intro subs i hf
    have hge : subs.length ≤ i := by omega
    simp [handleEventLoop, List.drop_eq_nil_of_le hge]
  | succ fuel ih =>
    intro subs i hf
    simp only [handleEventLoop]
    by_cases h : i < subs.length
    · rw [dif_pos h]
      have hdrop := List.drop_eq_getElem_cons h
      by_cases hm : event_is_matched_by_any_filter event subs[i].event_filters
      · have hswap :
            List.Perm (subs[i].id :: (handleEventLoop event fuel (swapRemove subs i) i).2.2)
              ((subs.drop i).map (fun s => s.id)) := by
          have hperm := (drop_swapRemove_perm subs i h).map (fun s => s.id)
          have hfuel : (swapRemove subs i).length - i ≤ fuel := by
            rw [swapRemove_length subs i h]; omega
          exact (List.Perm.cons _ (ih (swapRemove subs i) i hfuel)).trans hperm.symm
        have hnext : List.Perm (subs[i].id :: (handleEventLoop event fuel subs (i + 1)).2.2)
            ((subs.drop i).map (fun s => s.id)) := by
          rw [hdrop, List.map_cons]
          exact List.Perm.cons _ (ih subs (i + 1) (by omega))
        rcases hsend : subs[i].sender with _ | _ | _ <;>
          rcases htype : subs[i].subscriber_type with _ | _ <;>
          simp only [hm, not_true, if_false, hsend, htype, ite_false] <;>
          first
            | exact hswap
            | exact hnext
      · rw [if_pos (by simp [hm])]
        rw [hdrop, List.map_cons]
        exact List.Perm.cons _ (ih subs (i + 1) (by omega))
    · rw [dif_neg h]
      simp [List.drop_eq_nil_of_le (by omega : subs.length ≤ i)]

/-- After the dispatch pass, every remaining subscriber that matches the event
is persistent with a channel that is not disconnected (matched one-shot and
matched disconnected subscribers were removed during the pass). -/
theorem handleEventLoop_final (event : ApiClientEvent) :
    ∀ (fuel : Nat) (subs : List EventSubscription) (i : Nat), subs.length - i ≤ fuel →
      (∀ s ∈ subs.take i, event_is_matched_by_any_filter event s.event_filters = true →
          s.subscriber_type = .Persistent ∧ s.sender ≠ .disconnected) →
      ∀ s ∈ (handleEventLoop event fuel subs i).1,
        event_is_matched_by_any_filter event s.event_filters = true →
          s.subscriber_type = .Persistent ∧ s.sender ≠ .disconnected := by
  intro fuel
  induction fuel with
  | zero =>
    intro subs i hf hpre
    have hge : subs.length ≤ i := by omega
    rw [List.take_of_length_le hge] at hpre
    simpa [handleEventLoop] using hpre
  | succ fuel ih =>
    intro subs i hf hpre
    simp only [handleEventLoop]
    by_cases h : i < subs.length
    · rw [dif_pos h]
      have htake : subs.take (i + 1) = subs.take i ++ [subs[i]] := by
        rw [List.take_succ]
        simp [List.getElem?_eq_getElem h]
      by_cases hm : event_is_matched_by_any_filter event subs[i].event_filters
      · have hswap :
            ∀ s ∈ (handleEventLoop event fuel (swapRemove subs i) i).1,
              event_is_matched_by_any_filter event s.event_filters = true →
                s.subscriber_type = .Persistent ∧ s.sender ≠ .disconnected := by
          apply ih (swapRemove subs i) i
          · rw [swapRemove_length subs i h]; omega
          · rw [take_swapRemove]; exact hpre
        rcases hsend : subs[i].sender with _ | _ | _ <;>
          rcases htype : subs[i].subscriber_type with _ | _ <;>
          simp only [hm, not_true, if_false, hsend, htype, ite_false] <;>
          first
            | exact hswap
            | (apply ih subs (i + 1) (by omega)
               rw [htake]
               intro s hs
               rcases List.mem_append.mp hs with hs | hs
               · exact hpre s hs
               · rw [List.mem_singleton.mp hs]
                 intro _
                 refine ⟨htype, ?_⟩
                 rw [hsend]
                 simp)
      · rw [if_pos (by simp [hm])]
        apply ih subs (i + 1) (by omega)
        rw [htake]
        intro s hs
        rcases List.mem_append.mp hs with hs | hs
        · exact hpre s hs
        · rw [List.mem_singleton.mp hs]
          intro hmm
          exact absurd hmm hm
    · rw [dif_neg h]
      intro s hs
      exact hpre s (by rwa [List.take_of_length_le (by omega)])

/-- Deliveries happen only at visits: the delivered-id log is a sublist of the
ghost visit log. -/
theorem handleEventLoop_delivered (event : ApiClientEvent) :
    ∀ (fuel : Nat) (subs : List EventSubscription) (i : Nat),
      List.Sublist (handleEventLoop event fuel subs i).2.1
        (handleEventLoop event fuel subs i).2.2 := by
  intro fuel
  induction fuel with
  | zero => intro subs i; simp [handleEventLoop]
  | succ fuel ih =>
    intro subs i
    simp only [handleEventLoop]
    by_cases h : i < subs.length
    · rw [dif_pos h]
      by_cases hm : event_is_matched_by_any_filter event subs[i].event_filters
      · rcases hsend : subs[i].sender with _ | _ | _ <;>
          rcases htype : subs[i].subscriber_type with _ | _ <;>
          simp only [hm, not_true, if_false, hsend, htype, ite_false] <;>
          first
            | exact (ih _ _).cons₂ _
            | exact (ih _ _).cons _
      · rw [if_pos (by simp [hm])]
        exact (ih _ _).cons _
    · rw [dif_neg h]

/-- Claim C8 (amended: removal during the pass applies to subscribers to which
delivery was attempted, i.e. whose filters match the classified event): the
dispatch pass visits every currently registered subscriber exactly once (its
visit log is a permutation of the registered ids, so a swap-removed index's
moved-in element is not skipped); after the pass no remaining subscriber that
matches the event is one-shot or has a disconnected channel (a matching
disconnected subscriber is swap-removed in the same pass, a matching one-shot
subscriber is removed after its first matching visit); deliveries happen only
at visits, so with distinct registry ids every subscriber — in particular a
one-shot subscriber — receives the event at most once. -/
theorem c8_event_dispatch (event : ApiClientEvent) (subs : List EventSubscription) :
    List.Perm (handle_event event subs).2.2 (subs.map (fun s => s.id)) ∧
    (∀ s ∈ (handle_event event subs).1,
      event_is_matched_by_any_filter event s.event_filters = true →
        s.subscriber_type = .Persistent ∧ s.sender ≠ .disconnected) ∧
    List.Sublist (handle_event event subs).2.1 (handle_event event subs).2.2 ∧
    ((subs.map (fun s => s.id)).Nodup →
      ∀ n, ((handle_event event subs).2.1).count n ≤ 1) := by
  unfold handle_event
  have hv := handleEventLoop_visited event subs.length subs 0 (by omega)
  rw [List.drop_zero] at hv
  have hf := handleEventLoop_final event subs.length subs 0 (by omega) (by simp)
  have hd := handleEventLoop_delivered event subs.length subs 0
  refine ⟨hv, hf, hd, ?_⟩
  intro hnd n
  calc ((handleEventLoop event subs.length subs 0).2.1).count n
      ≤ ((handleEventLoop event subs.length subs 0).2.2).count n := hd.count_le n
    _ = (subs.map (fun s => s.id)).count n := hv.count_eq n
    _ ≤ 1 := List.nodup_iff_count_le_one.mp hnd n

/-- Claim C8 counterexample: the claim as stated says a subscriber whose
delivery channel is disconnected is swap-removed during the pass; but a
disconnected subscriber whose filters do not match the classified event is
never `try_send`-ed and survives the pass: dispatching a `Connected` event
over one disconnected `ApiPong`-filtered subscriber leaves it registered. -/
theorem c8_counterexample :
    (⟨[.ApiPong], .disconnected, .Persistent, 0⟩ : EventSubscription).sender
        = .disconnected ∧
    handle_event .Connected [⟨[.ApiPong], .disconnected, .Persistent, 0⟩]
      = ([⟨[.ApiPong], .disconnected, .Persistent, 0⟩], [], [0]) :=
  ⟨rfl, rfl⟩

/-- Claim C8 witness: a matching one-shot subscriber receives the event at
most once. -/
theorem c8_event_dispatch_witness :
    ((handle_event .Connected [⟨[.Any], .ok, .Once, 0⟩]).2.1).count 0 ≤ 1 :=
  (c8_event_dispatch .Connected [⟨[.Any], .ok, .Once, 0⟩]).2.2.2 (by decide) 0

end Zend
